import Mathlib

/-!
Verification development for the rspamd fuzzy storage worker
(`src/fuzzy_storage.cxx`).  The C++ code is shallowly embedded: doubles
are modelled as rationals, with the NaN-as-marker uses of `double`
modelled by `Option ℚ` (`none` = NaN, and every comparison against NaN
is false, as in IEEE semantics used by the code).  External library
functions that are not part of the repository sources are modelled from
the specification and marked as such in their doc comments.
-/

namespace FuzzyStorage

/-- Address family of a client socket address (`AF_INET`, `AF_INET6`, `AF_UNIX`). -/
inductive AddrFam
  | inet
  | inet6
  | unix
deriving DecidableEq

/-- A client address (`rspamd_inet_addr_t`): family plus the numeric address value. -/
structure Addr where
  fam : AddrFam
  ip : ℕ
deriving DecidableEq

/-- `struct rspamd_leaky_bucket_elt` (fuzzy_storage.cxx:189):
`last` is the last-update timestamp and `cur` the current level;
`cur = none` models a NaN current level (the ratelimited marker). -/
structure LeakyBucketElt where
  last : ℚ
  cur : Option ℚ
deriving DecidableEq

/-- The ratelimit bucket table `ctx->ratelimit_buckets`, keyed by masked address.
LRU eviction and TTL expiry are performed by the external `rspamd_lru_hash`
library and are outside this model. -/
abbrev Buckets := List (Addr × LeakyBucketElt)

/-- Lookup in the bucket table (`rspamd_lru_hash_lookup`). -/
def lookupBucket (m : Addr) : Buckets → Option LeakyBucketElt
  | [] => none
  | (a, e) :: rest => if a = m then some e else lookupBucket m rest

/-- In-place mutation of the element stored under `m`. -/
def updateBucket (m : Addr) (e : LeakyBucketElt) : Buckets → Buckets
  | [] => []
  | (a, e0) :: rest =>
      if a = m then (a, e) :: rest else (a, e0) :: updateBucket m e rest

/-- Modelled from the spec: `rspamd_inet_address_apply_mask` (libutil, not in
src).  Keeps the top `bits` bits of a `width`-bit address value. -/
def applyMask (bits width : ℕ) (a : Addr) : Addr :=
  ⟨a.fam, a.ip / 2 ^ (width - bits) * 2 ^ (width - bits)⟩

/-- Masking of the source address in `rspamd_fuzzy_check_ratelimit`
(fuzzy_storage.cxx:354-364): IPv4 uses `MIN(mask, 32)` bits, anything else
uses `MIN(MAX(mask * 4, 64), 128)` bits. -/
def maskedAddr (mask : ℕ) (a : Addr) : Addr :=
  match a.fam with
  | .inet => applyMask (min mask 32) 32 a
  | _ => applyMask (min (max (mask * 4) 64) 128) 128 a

/-- Ratelimiter configuration drawn from `rspamd_fuzzy_storage_ctx`. -/
structure RlCtx where
  whitelist : Option (List Addr)
  mask : ℕ
  rate : ℚ
  burst : ℚ

/-- One step of the leaky bucket update for an existing element
(fuzzy_storage.cxx:369-411).  Returns the new element, the `ratelimited`
flag and whether the blacklist hook is invoked (reason "ratelimit").
The NaN (`none`) branch touches nothing; otherwise the level decays by
`rate * (now - last)` (clamped at 0) when `last < now`, `last` is set to
`now`, and then the level is compared with `burst`: at or above it the
level becomes NaN, below it the level is incremented. -/
def bucketStep (rate burst : ℚ) (now : ℚ) (e : LeakyBucketElt) :
    LeakyBucketElt × Bool × Bool :=
  match e.cur with
  | none => (e, true, true)
  | some c =>
      let c0 : ℚ := c - rate * (now - e.last)
      let c1 : ℚ := if e.last < now then (if c0 < 0 then 0 else c0) else c
      if burst ≤ c1 then
        ({ last := now, cur := none }, false, false)
      else
        ({ last := now, cur := some (c1 + 1) }, false, false)

/-- The ratelimit whitelist test (fuzzy_storage.cxx:341-346): a configured
`ratelimit_whitelist` map matching the source address bypasses the limiter. -/
def whitelisted (wl : Option (List Addr)) (a : Addr) : Bool :=
  match wl with
  | some l => l.contains a
  | none => false

/-- `rspamd_fuzzy_check_ratelimit` (fuzzy_storage.cxx:334-427).  Returns
(allowed, new bucket table, blacklist hook invoked). -/
def rspamd_fuzzy_check_ratelimit (ctx : RlCtx) (addr : Option Addr) (now : ℚ)
    (bs : Buckets) : Bool × Buckets × Bool :=
  match addr with
  | none => (true, bs, false)
  | some a =>
      if whitelisted ctx.whitelist a then
        (true, bs, false)
      else
        let m := maskedAddr ctx.mask a
        match lookupBucket m bs with
        | some e =>
            match bucketStep ctx.rate ctx.burst now e with
            | (e', ratelimited, _) =>
                if ratelimited then
                  -- NaN branch: nothing is written back, hook invoked
                  (false, bs, true)
                else
                  (true, updateBucket m e' bs, false)
        | none =>
            (true, (m, { last := now, cur := some 1 }) :: bs, false)

/-- Run a sequence of CHECK-ratelimit decisions, threading the bucket table.
Each request is a (source address, timestamp) pair; the result collects the
(allowed, hook invoked) pair of every request. -/
def runRatelimit (ctx : RlCtx) : List (Option Addr × ℚ) → Buckets →
    Buckets × List (Bool × Bool)
  | [], bs => (bs, [])
  | (a, t) :: rest, bs =>
      match rspamd_fuzzy_check_ratelimit ctx a t bs with
      | (ok, bs', hook) =>
          match runRatelimit ctx rest bs' with
          | (bsf, outs) => (bsf, (ok, hook) :: outs)

/-! ### Statistics accumulator -/

/-- Protocol epochs (`rspamd_fuzzy_epoch`): EPOCH10 for v3, EPOCH11 for v4. -/
inductive Epoch
  | e10
  | e11
deriving DecidableEq

/-- Modelled from the spec: command codes from `libserver/fuzzy_wire.h`
(header not in src); only their distinctness matters here. -/
def FUZZY_CHECK : ℕ := 0

/-- Modelled from the spec: the WRITE command code (`fuzzy_wire.h`, not in src). -/
def FUZZY_WRITE : ℕ := 1

/-- Modelled from the spec: the DEL command code (`fuzzy_wire.h`, not in src). -/
def FUZZY_DEL : ℕ := 2

/-- Modelled from the spec: the STAT command code (`fuzzy_wire.h`, not in src). -/
def FUZZY_STAT : ℕ := 3

/-- Modelled from the spec: the REFRESH command code (`fuzzy_wire.h`, not in src). -/
def FUZZY_REFRESH : ℕ := 4

/-- `KEY_STAT_INTERVAL` (fuzzy_storage.cxx:55): per-key EMAs update at most
once per 3600 seconds. -/
def KEY_STAT_INTERVAL : ℚ := 3600

/-- Modelled from the spec: `rspamd_set_counter_ema` (libutil, not in src) —
an exponential moving average with weight `alpha = 0.5`, acting on a rational
accumulator. -/
def rspamd_set_counter_ema (ctr : ℚ) (value : ℚ) : ℚ :=
  ctr / 2 + value / 2

/-- Per-epoch counter array (`std::uint64_t x[RSPAMD_FUZZY_EPOCH_MAX]`),
restricted to the two live epochs. -/
structure EpochCounters where
  e10 : ℕ
  e11 : ℕ
deriving DecidableEq

/-- Read the counter of one epoch. -/
def EpochCounters.get (c : EpochCounters) : Epoch → ℕ
  | .e10 => c.e10
  | .e11 => c.e11

/-- Increment the counter of one epoch. -/
def EpochCounters.bump (c : EpochCounters) : Epoch → EpochCounters
  | .e10 => { c with e10 := c.e10 + 1 }
  | .e11 => { c with e11 := c.e11 + 1 }

/-- `struct fuzzy_global_stat` (fuzzy_storage.cxx:78). -/
structure GlobalStat where
  fuzzy_hashes : ℕ
  fuzzy_hashes_expired : ℕ
  fuzzy_hashes_checked : EpochCounters
  fuzzy_shingles_checked : EpochCounters
  fuzzy_hashes_found : EpochCounters
  invalid_requests : ℕ
  delayed_hashes : ℕ
deriving DecidableEq

/-- `struct fuzzy_generic_stat` (fuzzy_storage.cxx:94).  The constructor
zeroes the two EMA counters while `last_checked_time` defaults to NaN
(`none`); `last_checked_time = some t` models a non-NaN double `t`. -/
structure GenericStat where
  checked : ℕ
  matched : ℕ
  added : ℕ
  deleted : ℕ
  errors : ℕ
  checked_ctr : ℚ
  matched_ctr : ℚ
  last_checked_time : Option ℚ
  last_checked_count : ℕ
  last_matched_count : ℕ
deriving DecidableEq

/-- The default-constructed `fuzzy_generic_stat`: all counters zero,
`last_checked_time = NAN`. -/
def GenericStat.init : GenericStat :=
  { checked := 0, matched := 0, added := 0, deleted := 0, errors := 0
    checked_ctr := 0, matched_ctr := 0
    last_checked_time := none, last_checked_count := 0, last_matched_count := 0 }

/-- The per-key branch of `rspamd_fuzzy_update_stats`
(fuzzy_storage.cxx:728-763), including the `last_checked_time` bookkeeping
and the EMA updates.  The double comparison `last_checked_time == 0.0` is
false for NaN (`none`), and `timestamp > NaN + KEY_STAT_INTERVAL` is also
false. -/
def updateKeyStat (matched : Bool) (cmd : ℕ) (reply : ℤ) (timestamp : ℚ)
    (st : GenericStat) : GenericStat :=
  if ¬matched ∧ reply ≠ 0 then
    { st with errors := st.errors + 1 }
  else if cmd = FUZZY_CHECK then
    let st := { st with
      checked := st.checked + 1
      matched := if matched then st.matched + 1 else st.matched }
    if st.last_checked_time = some 0 then
      { st with
        last_checked_time := some timestamp
        last_checked_count := st.checked
        last_matched_count := st.matched }
    else if (match st.last_checked_time with
             | some t => decide (timestamp > t + KEY_STAT_INTERVAL)
             | none => false) then
      let nchecked : ℕ := st.checked - st.last_checked_count
      let nmatched : ℕ := st.matched - st.last_matched_count
      -- the source feeds both deltas into checked_ctr (fuzzy_storage.cxx:749-750)
      { st with
        checked_ctr :=
          rspamd_set_counter_ema
            (rspamd_set_counter_ema st.checked_ctr (nchecked : ℚ)) (nmatched : ℚ)
        last_checked_time := some timestamp
        last_checked_count := st.checked
        last_matched_count := st.matched }
    else
      st
  else if cmd = FUZZY_WRITE then
    { st with added := st.added + 1 }
  else if cmd = FUZZY_DEL then
    { st with deleted := st.deleted + 1 }
  else
    st

/-- The per-IP branch of `rspamd_fuzzy_update_stats`
(fuzzy_storage.cxx:765-784); no EMA bookkeeping. -/
def updateIpStat (matched : Bool) (cmd : ℕ) (reply : ℤ) (st : GenericStat) :
    GenericStat :=
  if ¬matched ∧ reply ≠ 0 then
    { st with errors := st.errors + 1 }
  else if cmd = FUZZY_CHECK then
    { st with
      checked := st.checked + 1
      matched := if matched then st.matched + 1 else st.matched }
  else if cmd = FUZZY_WRITE then
    { st with added := st.added + 1 }
  else if cmd = FUZZY_DEL then
    { st with deleted := st.deleted + 1 }
  else
    st

/-- `rspamd_fuzzy_update_stats` (fuzzy_storage.cxx:704-785): bumps the global
per-epoch counters and dispatches to the per-key / per-IP sub-statistics. -/
def rspamd_fuzzy_update_stats (g : GlobalStat) (epoch : Epoch)
    (matched is_shingle is_delayed : Bool)
    (key_stat ip_stat : Option GenericStat) (cmd : ℕ) (reply : ℤ)
    (timestamp : ℚ) : GlobalStat × Option GenericStat × Option GenericStat :=
  let g := { g with fuzzy_hashes_checked := g.fuzzy_hashes_checked.bump epoch }
  let g := if matched then
      { g with fuzzy_hashes_found := g.fuzzy_hashes_found.bump epoch }
    else g
  let g := if is_shingle then
      { g with fuzzy_shingles_checked := g.fuzzy_shingles_checked.bump epoch }
    else g
  let g := if is_delayed then
      { g with delayed_hashes := g.delayed_hashes + 1 }
    else g
  (g, key_stat.map (updateKeyStat matched cmd reply timestamp),
      ip_stat.map (updateIpStat matched cmd reply))

/-! ### Write permission check and command processing -/

/-- A configured key (`struct fuzzy_key`): its keypair id and the forbidden
flag set.  `kid` stands for the raw `RSPAMD_KEYPAIR_COMPONENT_ID` bytes. -/
structure FKey where
  kid : ℕ
  forbidden_ids : List ℕ
deriving DecidableEq

/-- Modelled from the spec: `rspamd_encode_base32_buf` (libutil, not in src) —
base-32 digit expansion of the raw key id. -/
def rspamd_encode_base32 (n : ℕ) : List ℕ :=
  Nat.toDigits 32 n |>.map Char.toNat

/-- `fuzzy_key::is_forbidden` (fuzzy_storage.cxx:144): linear membership in
the small forbidden-flag vector. -/
def FKey.is_forbidden (k : FKey) (flag : ℕ) : Bool :=
  k.forbidden_ids.contains flag

/-- Backend lookup result delivered to `rspamd_fuzzy_check_callback`
(`struct rspamd_fuzzy_reply` essentials). -/
structure BackendRes where
  value : ℤ
  prob : ℚ
  flag : ℕ
  ts : ℚ
deriving DecidableEq

/-- The v1 reply layout (`value`, `prob`, `flag`, `tag`). -/
structure ReplyV1 where
  value : ℤ
  prob : ℚ
  flag : ℕ
  tag : ℕ
deriving DecidableEq

/-- The full reply (`rspamd_fuzzy_reply`): v1 part plus the v2 timestamp. -/
structure RepFull where
  v1 : ReplyV1
  ts : ℚ
deriving DecidableEq

/-- The fields of `rspamd_fuzzy_storage_ctx` that drive command processing.
The backend, the delay jitter and the calendar clock are asynchronous or
random externals, modelled as oracles. -/
structure Ctx where
  encrypted_only : Bool
  read_only : Bool
  update_ips : Option (List Addr)
  update_keys : Option (List (List ℕ))
  skip_hashes : Option (List (List ℕ))
  blocked_ips : Option (List Addr)
  rl_enabled : Bool
  ratelimit_log_only : Bool
  rl : RlCtx
  hashes_stored : ℕ
  backend_check : List ℕ → BackendRes
  delay : Option ℚ
  delay_whitelist : Option (List Addr)
  jittered_delay : ℚ
  calendar_now : ℚ
  default_key : Option FKey
  keys : List (ℕ × FKey)
  crypto_decrypt : List ℕ → Option (List ℕ)

/-- The session fields of `struct fuzzy_session` consumed by
`rspamd_fuzzy_process_command` after decoding. -/
structure Session where
  addr : Option Addr
  key : Option FKey
  cmd : ℕ
  flag : ℕ
  tag : ℕ
  digest : List ℕ
  encrypted : Bool
  is_shingle : Bool
  epoch : Epoch
  timestamp : ℚ

/-- `rspamd_fuzzy_check_write` (fuzzy_storage.cxx:470-505).  Note the
control flow: when `update_ips` is configured and the session has a source
address, the function returns inside that block — a miss there is final and
`update_keys` is not consulted.  The `update_keys` block is reached only
when `update_ips` is absent or the address is missing. -/
def rspamd_fuzzy_check_write (ctx : Ctx) (s : Session) : Bool :=
  if ctx.read_only then
    false
  else
    match ctx.update_ips, s.addr with
    | some ips, some a =>
        if a.fam = AddrFam.unix then true
        else ips.contains a
    | _, _ =>
        match ctx.update_keys, s.key with
        | some keys, some k => keys.contains (rspamd_encode_base32 k.kid)
        | _, _ => false

/-- Modelled from the spec: `rspamd_encode_hex_buf` (libutil, not in src) —
two hex digits per digest byte. -/
def rspamd_encode_hex (l : List ℕ) : List ℕ :=
  l.flatMap (fun b => [b / 16, b % 16])

/-- `rspamd_fuzzy_make_reply` (fuzzy_storage.cxx:793-861) restricted to the
reply transformation: the reply is the backend result tagged with the
command tag; statistics are updated with `matched := prob > 0.5` before any
blanking; a delayed reply is blanked (ts/prob/value); an encrypted reply
whose hash flag is forbidden for the session key is fully blanked. -/
def rspamd_fuzzy_make_reply (s : Session) (res : BackendRes)
    (delayed : Bool) : RepFull :=
  let rep : RepFull :=
    { v1 := { value := res.value, prob := res.prob, flag := res.flag, tag := s.tag }
      ts := res.ts }
  let rep :=
    if delayed then
      { rep with ts := 0, v1 := { rep.v1 with prob := 0, value := 0 } }
    else rep
  if s.encrypted then
    match s.key with
    | some k =>
        if rep.v1.prob > 0 ∧ k.is_forbidden rep.v1.flag then
          { v1 := { value := 0, prob := 0, flag := 0, tag := s.tag }, ts := 0 }
        else rep
    | none => rep
  else rep

/-- The `matched` argument computed by `rspamd_fuzzy_make_reply` for
`rspamd_fuzzy_update_stats` (fuzzy_storage.cxx:807): `result->v1.prob > 0.5`. -/
def makeReplyMatched (prob : ℚ) : Bool :=
  prob > 1 / 2

/-- The global/per-key/per-IP statistics transition performed by
`rspamd_fuzzy_make_reply` (fuzzy_storage.cxx:805-814), before any blanking
of the outgoing reply. -/
def makeReplyStats (s : Session) (res : BackendRes) (delayed : Bool)
    (g : GlobalStat) (key_stat ip_stat : Option GenericStat) :
    GlobalStat × Option GenericStat × Option GenericStat :=
  rspamd_fuzzy_update_stats g s.epoch (makeReplyMatched res.prob)
    s.is_shingle delayed key_stat ip_stat s.cmd res.value s.timestamp

/-- The `delayed` decision of `rspamd_fuzzy_check_callback`
(fuzzy_storage.cxx:1027-1037): a NaN delay (`none`) disables it; otherwise
the source must miss the delay whitelist and the hash age must be below the
jittered delay. -/
def checkDelayed (ctx : Ctx) (s : Session) (res : BackendRes) : Bool :=
  match ctx.delay with
  | none => false
  | some _ =>
      (match ctx.delay_whitelist, s.addr with
       | some wl, some a => !wl.contains a
       | _, _ => true) &&
      decide (ctx.calendar_now - res.ts < ctx.jittered_delay)

/-- The reply produced for an allowed CHECK via the backend callback
`rspamd_fuzzy_check_callback` (no post-handler registered). -/
def checkReply (ctx : Ctx) (s : Session) : RepFull :=
  let res := ctx.backend_check s.digest
  rspamd_fuzzy_make_reply s res (checkDelayed ctx s res)

/-- Outcome of `rspamd_fuzzy_process_command` for one session: the reply
written back, the new ratelimit bucket table, whether the blacklist hook
fired, and whether a mutation was enqueued for the update pipeline. -/
structure ProcOut where
  reply : RepFull
  buckets : Buckets
  hook : Bool
  enqueued : Bool
deriving DecidableEq

/-- `rspamd_fuzzy_process_command` (fuzzy_storage.cxx:1093-1310) with no Lua
pre-handler registered.  CHECK consults the ratelimiter (unless disabled or
log-only) and then the backend; STAT replies with the stored-hash count;
everything else (WRITE/DEL/REFRESH) passes through `check_write`, the
skip-hash list (WRITE only) and is enqueued on success. -/
def rspamd_fuzzy_process_command (ctx : Ctx) (s : Session) (bs : Buckets) :
    ProcOut :=
  if ctx.encrypted_only ∧ ¬s.encrypted then
    { reply := { v1 := { value := 403, prob := 0, flag := s.flag, tag := s.tag }, ts := 0 }
      buckets := bs, hook := false, enqueued := false }
  else if s.cmd = FUZZY_CHECK then
    if ctx.rl_enabled then
      match rspamd_fuzzy_check_ratelimit ctx.rl s.addr s.timestamp bs with
      | (allowed, bs', hook) =>
          if ctx.ratelimit_log_only ∨ allowed then
            { reply := checkReply ctx s, buckets := bs', hook := hook
              enqueued := false }
          else
            { reply := { v1 := { value := 403, prob := 0, flag := 0, tag := s.tag }, ts := 0 }
              buckets := bs', hook := hook, enqueued := false }
    else
      { reply := checkReply ctx s, buckets := bs, hook := false, enqueued := false }
  else if s.cmd = FUZZY_STAT then
    { reply := { v1 := { value := 0, prob := 1, flag := ctx.hashes_stored, tag := s.tag }, ts := 0 }
      buckets := bs, hook := false, enqueued := false }
  else
    if rspamd_fuzzy_check_write ctx s then
      if (match ctx.skip_hashes with
          | some skips =>
              decide (s.cmd = FUZZY_WRITE) && skips.contains (rspamd_encode_hex s.digest)
          | none => false) then
        { reply := { v1 := { value := 401, prob := 0, flag := s.flag, tag := s.tag }, ts := 0 }
          buckets := bs, hook := false, enqueued := false }
      else
        { reply := { v1 := { value := 0, prob := 1, flag := s.flag, tag := s.tag }, ts := 0 }
          buckets := bs, hook := false, enqueued := true }
    else
      { reply := { v1 := { value := 403, prob := 0, flag := s.flag, tag := s.tag }, ts := 0 }
        buckets := bs, hook := false, enqueued := false }

/-- Run a list of sessions through `rspamd_fuzzy_process_command`, threading
the bucket table; collects every `ProcOut`. -/
def runCommands (ctx : Ctx) : List Session → Buckets → Buckets × List ProcOut
  | [], bs => (bs, [])
  | s :: rest, bs =>
      let out := rspamd_fuzzy_process_command ctx s bs
      match runCommands ctx rest out.buckets with
      | (bsf, outs) => (bsf, out :: outs)

/-! ### Update pipeline -/

/-- A queued mutation (`struct fuzzy_peer_cmd`): shingle marker plus the
command payload, kept abstract. -/
structure PeerCmd where
  is_shingle : Bool
  payload : List ℕ
deriving DecidableEq

/-- The update-pipeline state of `rspamd_fuzzy_storage_ctx`:
`updates_pending`, the failure counter and its limit, plus the worker
running flag consulted by the commit callback. -/
structure UpdCtx where
  updates_pending : List PeerCmd
  updates_failed : ℕ
  updates_maxfail : ℕ
  worker_running : Bool
deriving DecidableEq

/-- An in-flight transaction (`struct rspamd_updates_cbdata`): the snapshot
of the pending queue handed to the backend, plus the `final` flag. -/
structure Cbdata where
  updates : List PeerCmd
  final : Bool
deriving DecidableEq

/-- Result of a drain / commit step: the new pipeline state, the transaction
handed to `backend.process_updates` (if any), whether the event loop was
asked to exit, and the boolean the drain returns. -/
structure UpdOut where
  st : UpdCtx
  issued : Option Cbdata
  evbreak : Bool
  ret : Bool
deriving DecidableEq

/-- `rspamd_fuzzy_process_updates_queue` (fuzzy_storage.cxx:625-644): a
non-empty pending queue is swapped into a fresh transaction (leaving the
pending queue empty) and handed to the backend, returning true; an empty
queue is a no-op returning false, except that a final drain requests
event-loop exit. -/
def rspamd_fuzzy_process_updates_queue (ctx : UpdCtx) (final : Bool) : UpdOut :=
  if ctx.updates_pending ≠ [] then
    { st := { ctx with updates_pending := [] }
      issued := some { updates := ctx.updates_pending, final := final }
      evbreak := false
      ret := true }
  else if final then
    { st := ctx, issued := none, evbreak := true, ret := false }
  else
    { st := ctx, issued := none, evbreak := false, ret := false }

/-- `rspamd_fuzzy_updates_cb` (fuzzy_storage.cxx:538-623): the backend
commit callback.  On success the failure counter resets and a final (or
shutting-down) worker breaks the loop.  On failure the counter is
incremented; past `updates_maxfail` the transaction is discarded and the
counter reset; otherwise the transaction's updates are appended at the tail
of the pending queue (after any newly arrived updates) and a final
transaction retries the drain immediately. -/
def rspamd_fuzzy_updates_cb (success : Bool) (cb : Cbdata) (ctx : UpdCtx) :
    UpdOut :=
  if success then
    { st := { ctx with updates_failed := 0 }
      issued := none
      evbreak := cb.final ∨ ¬ctx.worker_running
      ret := true }
  else
    if ctx.updates_maxfail < ctx.updates_failed + 1 then
      { st := { ctx with updates_failed := 0 }
        issued := none
        evbreak := cb.final ∨ ¬ctx.worker_running
        ret := true }
    else
      let ctx' := { ctx with
        updates_failed := ctx.updates_failed + 1
        updates_pending := ctx.updates_pending ++ cb.updates }
      if cb.final then
        let out := rspamd_fuzzy_process_updates_queue ctx' cb.final
        { out with ret := true }
      else
        { st := ctx', issued := none, evbreak := false, ret := true }

/-! ### Wire decoding and the receive loop -/

/-- Sizes of the wire structures.  The command layout is
`[u8 version][u8 cmd][u8 shingles_count][u8 reserved][u32 flag][u32 tag]
[u8 digest[64]]` (spec, external interfaces), 76 bytes. -/
def cmdSize : ℕ := 76

/-- Modelled from the spec: the shingle tail
`[u8 shingle_alg][u64 seed][u64 hashes[32]]` (`fuzzy_wire.h` not in src). -/
def shingleLen : ℕ := 1 + 8 + 32 * 8

/-- Size of `rspamd_fuzzy_shingle_cmd`. -/
def shingleCmdSize : ℕ := cmdSize + shingleLen

/-- The encrypted header `{magic 4, key_id 32, ephemeral_pk 32, nonce 24,
mac 16}` (spec, data model). -/
def encHdrSize : ℕ := 4 + 32 + 32 + 24 + 16

/-- Size of `rspamd_fuzzy_encrypted_cmd`: header plus basic command. -/
def encCmdSize : ℕ := encHdrSize + cmdSize

/-- The encrypted magic "rscp" as bytes. -/
def fuzzy_encrypted_magic : List ℕ := [114, 115, 99, 112]

/-- Extension type byte: source domain. -/
def RSPAMD_FUZZY_EXT_SOURCE_DOMAIN : ℕ := 1

/-- Extension type byte: source IPv4. -/
def RSPAMD_FUZZY_EXT_SOURCE_IP4 : ℕ := 2

/-- Extension type byte: source IPv6. -/
def RSPAMD_FUZZY_EXT_SOURCE_IP6 : ℕ := 3

/-- The validation pass of `rspamd_fuzzy_extensions_from_wire`
(fuzzy_storage.cxx:1413-1473): each extension is a type byte followed by its
payload (length-prefixed domain, 4-byte IPv4, 16-byte IPv6); any
truncation or unknown type byte rejects the whole datagram. -/
def extensionsValid : List ℕ → Bool
  | [] => true
  | c :: rest =>
      if rest = [] then false
      else if c = RSPAMD_FUZZY_EXT_SOURCE_DOMAIN then
        match rest with
        | [] => false
        | len :: rest2 =>
            if len ≤ rest2.length then extensionsValid (rest2.drop len)
            else false
      else if c = RSPAMD_FUZZY_EXT_SOURCE_IP4 then
        if 4 ≤ rest.length then extensionsValid (rest.drop 4)
        else false
      else if c = RSPAMD_FUZZY_EXT_SOURCE_IP6 then
        if 16 ≤ rest.length then extensionsValid (rest.drop 16)
        else false
      else false
termination_by l => l.length
decreasing_by
  · simp [List.length_drop]
    omega
  · simp [List.length_drop]
    omega
  · simp [List.length_drop]
    omega

/-- `rspamd_fuzzy_command_valid` (fuzzy_storage.cxx:1313-1348): version 4
needs at least the (shingle) command size, version 3 an exact size match;
anything else is invalid (`none` models `RSPAMD_FUZZY_EPOCH_MAX`). -/
def rspamd_fuzzy_command_valid (version shingles_count r : ℕ) : Option Epoch :=
  if version = 4 then
    if shingles_count > 0 then
      if shingleCmdSize ≤ r then some .e11 else none
    else
      if cmdSize ≤ r then some .e11 else none
  else if version = 3 then
    if shingles_count > 0 then
      if r = shingleCmdSize then some .e10 else none
    else
      if r = cmdSize then some .e10 else none
  else
    none

/-- Little-endian accumulation of bytes into a number. -/
def leNum : List ℕ → ℕ
  | [] => 0
  | b :: rest => b % 256 + 256 * leNum rest

/-- Parse the fixed command part plus shingles and extensions, after
decryption has been dealt with (`rspamd_fuzzy_cmd_from_wire`,
fuzzy_storage.cxx:1582-1640).  `buf` here is the plaintext command bytes. -/
def parseCmd (addr : Option Addr) (key : Option FKey)
    (timestamp : ℚ) (encrypted : Bool) (buf : List ℕ) : Option Session :=
  if buf.length < cmdSize then none
  else
    let version := buf.headD 0
    let cmd := (buf.drop 1).headD 0
    let shingles_count := (buf.drop 2).headD 0
    match rspamd_fuzzy_command_valid version shingles_count buf.length with
    | none => none
    | some epoch =>
        let rest := buf.drop cmdSize
        let mk (rest2 : List ℕ) (sh : Bool) : Option Session :=
          if extensionsValid rest2 then
            some { addr := addr, key := key, cmd := cmd
                   flag := leNum ((buf.drop 4).take 4)
                   tag := leNum ((buf.drop 8).take 4)
                   digest := (buf.drop 12).take 64
                   encrypted := encrypted, is_shingle := sh
                   epoch := epoch, timestamp := timestamp }
          else none
        if shingles_count > 0 then
          if shingleLen ≤ rest.length then mk (rest.drop shingleLen) true
          else none
        else
          mk rest false

/-- `rspamd_fuzzy_decrypt_command` + `rspamd_fuzzy_cmd_from_wire`
(fuzzy_storage.cxx:1350-1641).  A buffer long enough to carry the encrypted
layout and starting with the magic is decrypted first (key selection falls
back to the default key; no default key rejects the datagram; the crypto
layer is an oracle returning the plaintext past the header).  The remaining
bytes are parsed as the plain command. -/
def rspamd_fuzzy_cmd_from_wire (ctx : Ctx) (addr : Option Addr)
    (timestamp : ℚ) (buf : List ℕ) : Option Session :=
  if buf.length < cmdSize then none
  else
    let encrypted :=
      decide (encCmdSize ≤ buf.length) && decide (buf.take 4 = fuzzy_encrypted_magic)
    if encrypted then
      match ctx.default_key with
      | none => none
      | some dk =>
          let key_id := leNum ((buf.drop 4).take 32)
          let key :=
            match ctx.keys.lookup key_id with
            | some k => k
            | none => dk
          match ctx.crypto_decrypt buf with
          | none => none
          | some plain => parseCmd addr (some key) timestamp true plain
    else
      parseCmd addr none timestamp false buf

/-- One received datagram: the source address as reconstructed from the
socket (absent when `msg_namelen` is too short) and the payload bytes. -/
structure Datagram where
  addr : Option Addr
  payload : List ℕ

/-- Per-datagram outcome of the receive loop. -/
inductive DatagramOutcome
  | dropped
  | replied (out : ProcOut)
  | invalid
deriving DecidableEq

/-- `rspamd_fuzzy_check_client` (fuzzy_storage.cxx:454-468): a source
matching `blocked_ips` is rejected and the blacklist hook fires with reason
"blacklisted". -/
def rspamd_fuzzy_check_client (ctx : Ctx) (a : Addr) : Bool :=
  match ctx.blocked_ips with
  | some blocked => !blocked.contains a
  | none => true

/-- The per-datagram body of `accept_fuzzy_socket`
(fuzzy_storage.cxx:1746-1808): blocked clients are dropped silently; a
successfully decoded command is processed (producing a reply); a failed
decode increments `invalid_requests`.  Returns the outcome, the new bucket
table and the increment applied to `invalid_requests`. -/
def acceptOneDatagram (ctx : Ctx) (d : Datagram) (timestamp : ℚ)
    (bs : Buckets) : DatagramOutcome × Buckets × ℕ :=
  let blocked :=
    match d.addr with
    | some a => !rspamd_fuzzy_check_client ctx a
    | none => false
  if blocked then
    (.dropped, bs, 0)
  else
    match rspamd_fuzzy_cmd_from_wire ctx d.addr timestamp d.payload with
    | some s =>
        let out := rspamd_fuzzy_process_command ctx s bs
        (.replied out, out.buckets, 0)
    | none => (.invalid, bs, 1)

/-! ### Auxiliary definitions used by the theorems -/

/-- The level invariant of one bucket element relative to a burst limit:
either the ratelimited NaN marker, or a level within `[0, burst + 1]`. -/
def bucketLevelInv (burst : ℚ) (e : LeakyBucketElt) : Prop :=
  match e.cur with
  | none => True
  | some c => 0 ≤ c ∧ c ≤ burst + 1

/-- The level invariant over a whole bucket table. -/
def bucketsInv (burst : ℚ) (bs : Buckets) : Prop :=
  ∀ p ∈ bs, bucketLevelInv burst p.2

/-- The write-permission condition exactly as the specification words it:
`read_only` is false AND (source matches `update_ips` OR source is AF_UNIX
OR the client public key, base32-encoded, is in `update_keys`).  Written for
comparison against `rspamd_fuzzy_check_write`. -/
def checkWriteSpecClaim (ctx : Ctx) (s : Session) : Bool :=
  !ctx.read_only &&
  ((match ctx.update_ips, s.addr with
    | some ips, some a => ips.contains a
    | _, _ => false) ||
   (match s.addr with
    | some a => decide (a.fam = AddrFam.unix)
    | none => false) ||
   (match ctx.update_keys, s.key with
    | some keys, some k => keys.contains (rspamd_encode_base32 k.kid)
    | _, _ => false))

/-- A sample source address used by the concrete scenarios. -/
def sampleAddr : Addr := ⟨.inet, 5⟩

/-- A sample backend oracle: every digest is a strong hit with flag 7. -/
def sampleBackend : List ℕ → BackendRes :=
  fun _ => { value := 0, prob := 9 / 10, flag := 7, ts := 0 }

/-- A sample worker context: ratelimit enabled with `rate = 0`, `burst = 2`,
mask 32, no whitelists/blocklists, no encryption configured. -/
def sampleCtx : Ctx :=
  { encrypted_only := false, read_only := false
    update_ips := none, update_keys := none, skip_hashes := none
    blocked_ips := none, rl_enabled := true, ratelimit_log_only := false
    rl := { whitelist := none, mask := 32, rate := 0, burst := 2 }
    hashes_stored := 42
    backend_check := sampleBackend
    delay := none, delay_whitelist := none, jittered_delay := 0, calendar_now := 0
    default_key := none, keys := [], crypto_decrypt := fun _ => none }

/-- A plaintext CHECK session from the sample address at time `t`. -/
def checkSession (t : ℚ) : Session :=
  { addr := some sampleAddr, key := none, cmd := FUZZY_CHECK, flag := 1, tag := 7
    digest := [], encrypted := false, is_shingle := false, epoch := .e11
    timestamp := t }

/-- Context for the write-permission scenario: `update_ips` configured (not
matching the session's source) together with `update_keys` holding the
session key. -/
def writePermCtx : Ctx :=
  { sampleCtx with
    update_ips := some [⟨.inet, 7⟩]
    update_keys := some [rspamd_encode_base32 5] }

/-- A WRITE session from a non-matching, non-unix source whose client key is
listed in `update_keys`. -/
def writePermSession : Session :=
  { addr := some ⟨.inet, 9⟩, key := some ⟨5, []⟩, cmd := FUZZY_WRITE
    flag := 1, tag := 2, digest := [], encrypted := true, is_shingle := false
    epoch := .e11, timestamp := 0 }

/-- A bucket table holding one already-ratelimited (NaN) entry for the
sample source. -/
def nanBucketTable : Buckets := [(sampleAddr, { last := 0, cur := none })]

/-- A worker context that blocks the sample source address. -/
def blockedCtx : Ctx := { sampleCtx with blocked_ips := some [sampleAddr] }

/-- A per-key statistics record more than one hour past its snapshot taken
at `last_checked_time = 1`: the next CHECK yields deltas of 10 checks and 4
matches. -/
def emaStat : GenericStat :=
  { checked := 9, matched := 3, added := 0, deleted := 0, errors := 0
    checked_ctr := 0, matched_ctr := 0, last_checked_time := some 1
    last_checked_count := 0, last_matched_count := 0 }

/-- A zeroed global statistics record. -/
def zeroGlobalStat : GlobalStat :=
  { fuzzy_hashes := 0, fuzzy_hashes_expired := 0
    fuzzy_hashes_checked := ⟨0, 0⟩, fuzzy_shingles_checked := ⟨0, 0⟩
    fuzzy_hashes_found := ⟨0, 0⟩, invalid_requests := 0, delayed_hashes := 0 }

/-! ### Theorems -/

/-- C3: the drain operation on the pending updates queue is a no-op
returning false on an empty queue unless the drain is final, in which case
it requests event-loop exit; on a non-empty queue it creates a transaction
carrying exactly the pending updates, leaves the pending queue empty (the
swap makes it immediately usable again), hands the transaction to the
backend and returns true. -/
theorem drain_pending_queue_spec (ctx : UpdCtx) (final : Bool) :
    (ctx.updates_pending = [] → final = false →
      rspamd_fuzzy_process_updates_queue ctx final =
        { st := ctx, issued := none, evbreak := false, ret := false }) ∧
    (ctx.updates_pending = [] → final = true →
      rspamd_fuzzy_process_updates_queue ctx final =
        { st := ctx, issued := none, evbreak := true, ret := false }) ∧
    (ctx.updates_pending ≠ [] →
      rspamd_fuzzy_process_updates_queue ctx final =
        { st := { ctx with updates_pending := [] }
          issued := some { updates := ctx.updates_pending, final := final }
          evbreak := false, ret := true }) := by
  refine ⟨?_, ?_, ?_⟩
  · intro h1 h2
    simp [rspamd_fuzzy_process_updates_queue, h1, h2]
  · intro h1 h2
    simp [rspamd_fuzzy_process_updates_queue, h1, h2]
  · intro h1
    simp [rspamd_fuzzy_process_updates_queue, h1]

/-- Witness for C3 at a concrete pipeline state. -/
theorem drain_pending_queue_spec_witness :
    rspamd_fuzzy_process_updates_queue
        { updates_pending := [{ is_shingle := false, payload := [1] }]
          updates_failed := 0, updates_maxfail := 3, worker_running := true } true =
      { st := { updates_pending := [], updates_failed := 0, updates_maxfail := 3
                worker_running := true }
        issued := some { updates := [{ is_shingle := false, payload := [1] }], final := true }
        evbreak := false, ret := true } :=
  (drain_pending_queue_spec
    { updates_pending := [{ is_shingle := false, payload := [1] }]
      updates_failed := 0, updates_maxfail := 3, worker_running := true } true).2.2
    (by decide)

/-- C2: the update-commit callback resets `updates_failed` on success; on
failure it increments the counter, and past `updates_maxfail` it discards
the in-flight updates (pending queue untouched) and resets the counter;
otherwise the transaction's updates are appended at the tail of the pending
queue, after any newly arrived updates, and a final transaction immediately
retries the drain, re-issuing the combined queue. -/
theorem updates_commit_callback_spec (success : Bool) (cb : Cbdata) (ctx : UpdCtx) :
    (success = true →
      (rspamd_fuzzy_updates_cb success cb ctx).st =
        { ctx with updates_failed := 0 } ∧
      (rspamd_fuzzy_updates_cb success cb ctx).issued = none) ∧
    (success = false → ctx.updates_maxfail < ctx.updates_failed + 1 →
      (rspamd_fuzzy_updates_cb success cb ctx).st =
        { ctx with updates_failed := 0 } ∧
      (rspamd_fuzzy_updates_cb success cb ctx).issued = none) ∧
    (success = false → ctx.updates_failed + 1 ≤ ctx.updates_maxfail →
      (cb.final = false →
        rspamd_fuzzy_updates_cb success cb ctx =
          { st := { ctx with
              updates_failed := ctx.updates_failed + 1
              updates_pending := ctx.updates_pending ++ cb.updates }
            issued := none, evbreak := false, ret := true }) ∧
      (cb.final = true → cb.updates ≠ [] →
        (rspamd_fuzzy_updates_cb success cb ctx).issued =
          some { updates := ctx.updates_pending ++ cb.updates, final := true } ∧
        (rspamd_fuzzy_updates_cb success cb ctx).st.updates_pending = [] ∧
        (rspamd_fuzzy_updates_cb success cb ctx).st.updates_failed =
          ctx.updates_failed + 1)) := by
  refine ⟨?_, ?_, ?_⟩
  · intro h
    simp [rspamd_fuzzy_updates_cb, h]
  · intro h1 h2
    simp [rspamd_fuzzy_updates_cb, h1, h2]
  · intro h1 h2
    constructor
    · intro h3
      simp [rspamd_fuzzy_updates_cb, h1, Nat.not_lt.mpr h2, h3]
    · intro h3 h4
      simp [rspamd_fuzzy_updates_cb, h1, Nat.not_lt.mpr h2, h3,
        rspamd_fuzzy_process_updates_queue, h4]

/-- Witness for C2: a failed non-final commit with one retry left requeues
the transaction's update behind the newly arrived one. -/
theorem updates_commit_callback_spec_witness :
    rspamd_fuzzy_updates_cb false
        { updates := [{ is_shingle := false, payload := [7] }], final := false }
        { updates_pending := [{ is_shingle := true, payload := [9] }]
          updates_failed := 0, updates_maxfail := 3, worker_running := true } =
      { st := { updates_pending :=
                  [{ is_shingle := true, payload := [9] },
                   { is_shingle := false, payload := [7] }]
                updates_failed := 1, updates_maxfail := 3, worker_running := true }
        issued := none, evbreak := false, ret := true } :=
  ((updates_commit_callback_spec false
      { updates := [{ is_shingle := false, payload := [7] }], final := false }
      { updates_pending := [{ is_shingle := true, payload := [9] }]
        updates_failed := 0, updates_maxfail := 3, worker_running := true }).2.2
    (by decide) (by decide)).1 (by decide)

/-! Helper lemmas about the bucket table. -/

theorem lookupBucket_mem {m : Addr} {bs : Buckets} {e : LeakyBucketElt}
    (h : lookupBucket m bs = some e) : (m, e) ∈ bs := by
  induction bs with
  | nil => simp [lookupBucket] at h
  | cons p rest ih =>
      obtain ⟨a, e0⟩ := p
      by_cases ha : a = m
      · subst ha
        simp [lookupBucket] at h
        subst h
        exact List.mem_cons_self _ _
      · simp [lookupBucket, ha] at h
        exact List.mem_cons_of_mem _ (ih h)

theorem mem_updateBucket {m : Addr} {e' : LeakyBucketElt} {bs : Buckets}
    {p : Addr × LeakyBucketElt} (h : p ∈ updateBucket m e' bs) :
    p = (m, e') ∨ p ∈ bs := by
  induction bs with
  | nil => simp [updateBucket] at h
  | cons q rest ih =>
      obtain ⟨a, e0⟩ := q
      by_cases ha : a = m
      · subst ha
        simp [updateBucket] at h
        rcases h with h | h
        · left
          simp [h]
        · right
          exact List.mem_cons_of_mem _ h
      · simp [updateBucket, ha] at h
        rcases h with h | h
        · right
          simp [h]
        · rcases ih h with h' | h'
          · exact Or.inl h'
          · exact Or.inr (List.mem_cons_of_mem _ h')

theorem lookupBucket_updateBucket_ne {m m' : Addr} {e' : LeakyBucketElt}
    {bs : Buckets} (h : m ≠ m') :
    lookupBucket m (updateBucket m' e' bs) = lookupBucket m bs := by
  induction bs with
  | nil => simp [updateBucket]
  | cons q rest ih =>
      obtain ⟨a, e0⟩ := q
      by_cases ha : a = m'
      · subst ha
        simp [updateBucket, lookupBucket, Ne.symm h]
      · simp [updateBucket, lookupBucket, ha, ih]

theorem bucketStep_inv {rate burst now : ℚ} {e : LeakyBucketElt}
    (h : bucketLevelInv burst e) :
    bucketLevelInv burst (bucketStep rate burst now e).1 := by
  unfold bucketStep
  cases hcur : e.cur with
  | none => simpa [hcur] using h
  | some c =>
      simp only [hcur]
      set c0 : ℚ := c - rate * (now - e.last) with hc0
      set c1 : ℚ := if e.last < now then (if c0 < 0 then 0 else c0) else c with hc1
      by_cases hge : burst ≤ c1
      · simp [hge, bucketLevelInv]
      · have hpos : 0 ≤ c1 := by
          rw [hc1]
          split
          · split
            next => exact le_refl 0
            next hneg => exact le_of_not_lt hneg
          · have := h
            simp [bucketLevelInv, hcur] at this
            exact this.1
        have hlt : c1 < burst := lt_of_not_ge hge
        simp only [hge, if_false]
        simp [bucketLevelInv]
        constructor
        · linarith
        · linarith

theorem check_ratelimit_inv {ctx : RlCtx} {addr : Option Addr} {now : ℚ}
    {bs : Buckets} (hb : 0 ≤ ctx.burst) (h : bucketsInv ctx.burst bs) :
    bucketsInv ctx.burst (rspamd_fuzzy_check_ratelimit ctx addr now bs).2.1 := by
  cases addr with
  | none => exact h
  | some a =>
      by_cases hwl : whitelisted ctx.whitelist a
      · simpa [rspamd_fuzzy_check_ratelimit, hwl] using h
      · cases hlook : lookupBucket (maskedAddr ctx.mask a) bs with
        | none =>
            simp only [rspamd_fuzzy_check_ratelimit, hwl, hlook, if_false,
              Bool.false_eq_true]
            intro p hp
            rcases List.mem_cons.mp hp with rfl | hmem
            · constructor
              · norm_num
              · linarith
            · exact h _ hmem
        | some e =>
            rcases hstep : bucketStep ctx.rate ctx.burst now e with ⟨e', rl, hk⟩
            have he' : bucketLevelInv ctx.burst e' := by
              have := @bucketStep_inv ctx.rate ctx.burst now e
                (h _ (lookupBucket_mem hlook))
              rwa [hstep] at this
            by_cases hrl : rl = true
            · simpa [rspamd_fuzzy_check_ratelimit, hwl, hlook, hstep, hrl] using h
            · simp only [Bool.not_eq_true] at hrl
              simp only [rspamd_fuzzy_check_ratelimit, hwl, hlook, hstep, hrl,
                if_false, Bool.false_eq_true]
              intro p hp
              rcases mem_updateBucket hp with rfl | hmem
              · exact he'
              · exact h _ hmem

theorem runRatelimit_inv {ctx : RlCtx} (hb : 0 ≤ ctx.burst)
    (reqs : List (Option Addr × ℚ)) {bs : Buckets}
    (h : bucketsInv ctx.burst bs) :
    bucketsInv ctx.burst (runRatelimit ctx reqs bs).1 := by
  induction reqs generalizing bs with
  | nil => simpa [runRatelimit]
  | cons r rest ih =>
      obtain ⟨a, t⟩ := r
      have h1 : bucketsInv ctx.burst (rspamd_fuzzy_check_ratelimit ctx a t bs).2.1 :=
        check_ratelimit_inv hb h
      unfold runRatelimit
      cases hc : rspamd_fuzzy_check_ratelimit ctx a t bs with
      | mk ok pr =>
          cases pr with
          | mk bs' hook =>
              rw [hc] at h1
              cases hrun : runRatelimit ctx rest bs' with
              | mk bsf outs =>
                  have h2 := ih h1
                  rw [hrun] at h2
                  simpa [hrun] using h2

theorem nan_bucket_step_preserved (ctx : RlCtx) (addr : Option Addr) (now : ℚ)
    {bs : Buckets} {m : Addr} {e : LeakyBucketElt}
    (hlook : lookupBucket m bs = some e) (hnan : e.cur = none) :
    lookupBucket m (rspamd_fuzzy_check_ratelimit ctx addr now bs).2.1 = some e := by
  cases addr with
  | none => exact hlook
  | some a =>
      by_cases hwl : whitelisted ctx.whitelist a
      · simpa [rspamd_fuzzy_check_ratelimit, hwl]
      · by_cases hm : maskedAddr ctx.mask a = m
        · have hlook2 : lookupBucket (maskedAddr ctx.mask a) bs = some e := by
            rw [hm]
            exact hlook
          simp [rspamd_fuzzy_check_ratelimit, hwl, hlook2, bucketStep, hnan, hlook]
        · cases hlook2 : lookupBucket (maskedAddr ctx.mask a) bs with
          | none =>
              simp only [rspamd_fuzzy_check_ratelimit, hwl, hlook2, if_false,
                Bool.false_eq_true]
              rw [lookupBucket]
              simp [hm, hlook]
          | some e2 =>
              rcases hstep : bucketStep ctx.rate ctx.burst now e2 with ⟨e2', rl, hk⟩
              by_cases hrl : rl = true
              · simp [rspamd_fuzzy_check_ratelimit, hwl, hlook2, hstep, hrl, hlook]
              · simp only [Bool.not_eq_true] at hrl
                simp only [rspamd_fuzzy_check_ratelimit, hwl, hlook2, hstep, hrl,
                  if_false, Bool.false_eq_true]
                rw [lookupBucket_updateBucket_ne (Ne.symm hm)]
                exact hlook

theorem nan_bucket_run_preserved (ctx : RlCtx) (reqs : List (Option Addr × ℚ))
    {bs : Buckets} {m : Addr} {e : LeakyBucketElt}
    (hlook : lookupBucket m bs = some e) (hnan : e.cur = none) :
    lookupBucket m (runRatelimit ctx reqs bs).1 = some e := by
  induction reqs generalizing bs with
  | nil => simpa [runRatelimit]
  | cons r rest ih =>
      obtain ⟨a, t⟩ := r
      have h1 := nan_bucket_step_preserved ctx a t hlook hnan
      unfold runRatelimit
      cases hc : rspamd_fuzzy_check_ratelimit ctx a t bs with
      | mk ok pr =>
          cases pr with
          | mk bs' hook =>
              rw [hc] at h1
              cases hrun : runRatelimit ctx rest bs' with
              | mk bsf outs =>
                  have h2 := ih h1
                  rw [hrun] at h2
                  simpa [hrun] using h2

/-- C9 counterexample: with `burst = 2` and `rate = 1/2`, four requests from
one source at seconds 0..3 leave the bucket at level `5/2 > burst`, refuting
`current_level ≤ burst`. -/
theorem bucket_level_bound_counterexample :
    lookupBucket sampleAddr ((runRatelimit
        { whitelist := none, mask := 32, rate := 1 / 2, burst := 2 }
        [(some sampleAddr, 0), (some sampleAddr, 1),
         (some sampleAddr, 2), (some sampleAddr, 3)] []).1)
      = some { last := 3, cur := some (5 / 2) } ∧
    ¬((5 : ℚ) / 2 ≤ 2) := by
  constructor
  · norm_num [runRatelimit, rspamd_fuzzy_check_ratelimit, whitelisted, maskedAddr,
      applyMask, lookupBucket, updateBucket, bucketStep, sampleAddr]
  · norm_num

/-- C9 (amended): for a non-negative burst, after any sequence of
rate-limiter operations starting from the empty table, every bucket's level
is NaN or lies within `[0, burst + 1]` (the level can exceed `burst` by up
to one, since the check happens before the increment). -/
theorem bucket_level_invariant (ctx : RlCtx) (hb : 0 ≤ ctx.burst)
    (reqs : List (Option Addr × ℚ)) :
    bucketsInv ctx.burst (runRatelimit ctx reqs []).1 :=
  runRatelimit_inv hb reqs (by intro p hp; simp at hp)

/-- Witness for the amended C9 at a concrete configuration and run. -/
theorem bucket_level_invariant_witness :
    bucketsInv 2 ((runRatelimit
        { whitelist := none, mask := 32, rate := 1 / 2, burst := 2 }
        [(some sampleAddr, 0), (some sampleAddr, 1),
         (some sampleAddr, 2), (some sampleAddr, 3)] []).1) :=
  bucket_level_invariant { whitelist := none, mask := 32, rate := 1 / 2, burst := 2 }
    (by decide)
    [(some sampleAddr, 0), (some sampleAddr, 1),
     (some sampleAddr, 2), (some sampleAddr, 3)]

/-- C8: a bucket whose level is NaN denies every subsequent CHECK from the
same masked source — the limiter returns deny without touching the table,
the blacklist hook fires, and the processed request is answered with
`value = 403, prob = 0`; moreover no sequence of rate-limiter operations
ever changes the entry (in particular its level never becomes non-NaN);
LRU eviction and TTL expiry belong to the external LRU cache. -/
theorem nan_bucket_ratelimited_persistent
    (ctx : RlCtx) (a : Addr) (now : ℚ) (bs : Buckets) (e : LeakyBucketElt)
    (hwl : whitelisted ctx.whitelist a = false)
    (hlook : lookupBucket (maskedAddr ctx.mask a) bs = some e)
    (hnan : e.cur = none) :
    rspamd_fuzzy_check_ratelimit ctx (some a) now bs = (false, bs, true) ∧
    (∀ (pctx : Ctx) (s : Session), pctx.rl = ctx → pctx.rl_enabled = true →
      pctx.ratelimit_log_only = false → pctx.encrypted_only = false →
      s.cmd = FUZZY_CHECK → s.addr = some a → s.timestamp = now →
      rspamd_fuzzy_process_command pctx s bs =
        { reply := { v1 := { value := 403, prob := 0, flag := 0, tag := s.tag }, ts := 0 }
          buckets := bs, hook := true, enqueued := false }) ∧
    (∀ reqs : List (Option Addr × ℚ),
      lookupBucket (maskedAddr ctx.mask a) (runRatelimit ctx reqs bs).1 = some e) := by
  have hstep : rspamd_fuzzy_check_ratelimit ctx (some a) now bs = (false, bs, true) := by
    simp [rspamd_fuzzy_check_ratelimit, hwl, hlook, bucketStep, hnan]
  refine ⟨hstep, ?_, ?_⟩
  · intro pctx s h1 h2 h3 h4 h5 h6 h7
    rw [rspamd_fuzzy_process_command]
    rw [if_neg (by simp [h4])]
    rw [if_pos h5]
    rw [if_pos h2]
    rw [h1, h6, h7, hstep]
    simp [h3]
  · intro reqs
    exact nan_bucket_run_preserved ctx reqs hlook hnan

/-- Witness for C8 at the concrete NaN bucket. -/
theorem nan_bucket_ratelimited_persistent_witness :
    rspamd_fuzzy_check_ratelimit sampleCtx.rl (some sampleAddr) 1 nanBucketTable =
      (false, nanBucketTable, true) ∧
    rspamd_fuzzy_process_command sampleCtx (checkSession 1) nanBucketTable =
      { reply := { v1 := { value := 403, prob := 0, flag := 0, tag := 7 }, ts := 0 }
        buckets := nanBucketTable, hook := true, enqueued := false } :=
  ⟨(nan_bucket_ratelimited_persistent sampleCtx.rl sampleAddr 1 nanBucketTable
      { last := 0, cur := none } (by decide) (by decide) rfl).1,
   (nan_bucket_ratelimited_persistent sampleCtx.rl sampleAddr 1 nanBucketTable
      { last := 0, cur := none } (by decide) (by decide) rfl).2.1
     sampleCtx (checkSession 1) rfl rfl rfl rfl rfl rfl rfl⟩

/-- C1 counterexample: with `rate = 0`, `burst = 2`, three identical CHECKs
from one /32 within one second, the third request is NOT denied — all three
replies carry the backend value 0 (not 403) and the hook never fires, even
though the third request drives the bucket level to NaN. -/
theorem ratelimit_trip_counterexample :
    ((runCommands sampleCtx [checkSession 0, checkSession 0, checkSession 0] []).2.map
        (fun o => (o.reply.v1.value, o.hook)))
      = [(0, false), (0, false), (0, false)] ∧
    lookupBucket sampleAddr
        (runCommands sampleCtx [checkSession 0, checkSession 0, checkSession 0] []).1
      = some { last := 0, cur := none } := by
  constructor <;>
    norm_num [runCommands, rspamd_fuzzy_process_command, checkReply, checkDelayed,
      rspamd_fuzzy_make_reply, sampleCtx, sampleBackend, checkSession, sampleAddr,
      FUZZY_CHECK, FUZZY_STAT, rspamd_fuzzy_check_ratelimit, whitelisted, maskedAddr,
      applyMask, lookupBucket, updateBucket, bucketStep]

/-- C1 (amended): when a CHECK finds its bucket with a non-NaN level that is
at or above `burst` after decay, the limiter stores NaN into the bucket but
allows that same request without invoking the blacklist hook; the denial
(reply `value = 403, prob = 0`) and the hook happen on later requests while
the level is NaN.  In particular, with `rate = 0`, `burst = 2`, three
identical CHECKs from one /32 within one second all succeed and the fourth
request is the first denied. -/
theorem ratelimit_trip_allows_current_request
    (ctx : RlCtx) (a : Addr) (now : ℚ) (bs : Buckets) (e : LeakyBucketElt) (c : ℚ)
    (hwl : whitelisted ctx.whitelist a = false)
    (hlook : lookupBucket (maskedAddr ctx.mask a) bs = some e)
    (hcur : e.cur = some c)
    (hge : ctx.burst ≤
      (if e.last < now then
        (if c - ctx.rate * (now - e.last) < 0 then 0 else c - ctx.rate * (now - e.last))
       else c)) :
    rspamd_fuzzy_check_ratelimit ctx (some a) now bs =
      (true, updateBucket (maskedAddr ctx.mask a) { last := now, cur := none } bs,
       false) ∧
    ((runCommands sampleCtx
        [checkSession 0, checkSession 0, checkSession 0, checkSession 1] []).2.map
        (fun o => (o.reply.v1.value, o.reply.v1.prob, o.hook)))
      = [(0, 9 / 10, false), (0, 9 / 10, false), (0, 9 / 10, false),
         (403, 0, true)] := by
  constructor
  · simp only [rspamd_fuzzy_check_ratelimit, hwl, hlook, bucketStep, hcur,
      if_false, Bool.false_eq_true]
    rw [if_pos hge]
    simp
  · norm_num [runCommands, rspamd_fuzzy_process_command, checkReply, checkDelayed,
      rspamd_fuzzy_make_reply, sampleCtx, sampleBackend, checkSession, sampleAddr,
      FUZZY_CHECK, FUZZY_STAT, rspamd_fuzzy_check_ratelimit, whitelisted, maskedAddr,
      applyMask, lookupBucket, updateBucket, bucketStep]

/-- Witness for the amended C1: a bucket at level 2 with `burst = 2` and
`rate = 0` is set to NaN while the triggering request is allowed. -/
theorem ratelimit_trip_allows_current_request_witness :
    rspamd_fuzzy_check_ratelimit sampleCtx.rl (some sampleAddr) 1
        [(sampleAddr, { last := 1, cur := some 2 })] =
      (true,
       updateBucket sampleAddr { last := 1, cur := none }
         [(sampleAddr, { last := 1, cur := some 2 })],
       false) :=
  (ratelimit_trip_allows_current_request sampleCtx.rl sampleAddr 1
      [(sampleAddr, { last := 1, cur := some 2 })] { last := 1, cur := some 2 } 2
      (by decide) (by decide) rfl (by decide)).1

/-- C4 counterexample: with `update_ips` configured (source not matching,
not AF_UNIX) and the client key listed in `update_keys`, the code denies the
WRITE (403, prob 0) although the spec's disjunction grants it. -/
theorem check_write_counterexample :
    rspamd_fuzzy_check_write writePermCtx writePermSession = false ∧
    checkWriteSpecClaim writePermCtx writePermSession = true ∧
    (rspamd_fuzzy_process_command writePermCtx writePermSession []).reply.v1.value = 403 ∧
    (rspamd_fuzzy_process_command writePermCtx writePermSession []).reply.v1.prob = 0 := by
  refine ⟨by decide, by decide, by decide, by decide⟩

/-- C4 (amended): the write-permission check succeeds exactly when
`read_only` is false and: if `update_ips` is configured and the session has
a source address, then the address is AF_UNIX or matches `update_ips`
(`update_keys` is not consulted in that case); otherwise `update_keys` must
be configured, the session must carry a client key, and the base32-encoded
key id must be listed.  A WRITE or DEL request failing the check is
answered with `value = 403, prob = 0`. -/
theorem check_write_spec (ctx : Ctx) (s : Session) (bs : Buckets) :
    (rspamd_fuzzy_check_write ctx s = true ↔
      (ctx.read_only = false ∧
        ((∃ ips a, ctx.update_ips = some ips ∧ s.addr = some a ∧
            (a.fam = AddrFam.unix ∨ ips.contains a = true)) ∨
         ((ctx.update_ips = none ∨ s.addr = none) ∧
          (∃ keys k, ctx.update_keys = some keys ∧ s.key = some k ∧
            keys.contains (rspamd_encode_base32 k.kid) = true))))) ∧
    (s.cmd ≠ FUZZY_CHECK → s.cmd ≠ FUZZY_STAT →
      (ctx.encrypted_only = true → s.encrypted = true) →
      rspamd_fuzzy_check_write ctx s = false →
      (rspamd_fuzzy_process_command ctx s bs).reply =
        { v1 := { value := 403, prob := 0, flag := s.flag, tag := s.tag }, ts := 0 }) := by
  constructor
  · unfold rspamd_fuzzy_check_write
    cases hro : ctx.read_only with
    | true => simp [hro]
    | false =>
        simp only [hro, Bool.false_eq_true, if_false]
        cases hips : ctx.update_ips with
        | some ips =>
            cases haddr : s.addr with
            | some a =>
                by_cases hf : a.fam = AddrFam.unix <;> simp [hips, haddr, hf]
            | none =>
                cases hkeys : ctx.update_keys with
                | some keys =>
                    cases hkey : s.key with
                    | some k => simp [hips, haddr, hkeys, hkey]
                    | none => simp [hips, haddr, hkeys, hkey]
                | none => simp [hips, haddr, hkeys]
        | none =>
            cases hkeys : ctx.update_keys with
            | some keys =>
                cases hkey : s.key with
                | some k => simp [hips, hkeys, hkey]
                | none => simp [hips, hkeys, hkey]
            | none => simp [hips, hkeys]
  · intro h1 h2 h3 h4
    rw [rspamd_fuzzy_process_command]
    rw [if_neg (fun hc => hc.2 (h3 hc.1))]
    rw [if_neg h1, if_neg h2, if_neg (by simp [h4])]

/-- Witness for the amended C4: the concrete WRITE above is refused with a
403/0 reply. -/
theorem check_write_spec_witness :
    (rspamd_fuzzy_process_command writePermCtx writePermSession []).reply =
      { v1 := { value := 403, prob := 0, flag := 1, tag := 2 }, ts := 0 } :=
  (check_write_spec writePermCtx writePermSession []).2
    (by decide) (by decide) (fun h => by simp [writePermCtx, sampleCtx] at h)
    (by decide)

/-- C5 counterexample: a datagram from a blocked source is dropped silently —
no reply is produced and `invalid_requests` is not incremented — refuting
the claimed two-way disjunction. -/
theorem datagram_reply_or_invalid_counterexample :
    (match (acceptOneDatagram blockedCtx ⟨some sampleAddr, []⟩ 0 []).1 with
      | .replied _ => true
      | _ => false) = false ∧
    (acceptOneDatagram blockedCtx ⟨some sampleAddr, []⟩ 0 []).1 =
      DatagramOutcome.dropped ∧
    (acceptOneDatagram blockedCtx ⟨some sampleAddr, []⟩ 0 []).2.2 = 0 := by
  refine ⟨by decide, by decide, by decide⟩

/-- C5 (amended): every received datagram meets exactly one of three fates:
dropped silently when its source address is present and matches
`blocked_ips` (blacklist hook, reason "blacklisted"); answered with a reply
when it is not blocked and decodes; counted in `invalid_requests` exactly
once when it is not blocked and decoding fails. -/
theorem datagram_outcome_trichotomy (ctx : Ctx) (d : Datagram) (now : ℚ)
    (bs : Buckets) :
    ((acceptOneDatagram ctx d now bs).1 = DatagramOutcome.dropped ↔
      (∃ a, d.addr = some a ∧ rspamd_fuzzy_check_client ctx a = false)) ∧
    ((acceptOneDatagram ctx d now bs).1 = DatagramOutcome.invalid ↔
      ((∀ a, d.addr = some a → rspamd_fuzzy_check_client ctx a = true) ∧
       rspamd_fuzzy_cmd_from_wire ctx d.addr now d.payload = none)) ∧
    ((∃ out, (acceptOneDatagram ctx d now bs).1 = DatagramOutcome.replied out) ↔
      ((∀ a, d.addr = some a → rspamd_fuzzy_check_client ctx a = true) ∧
       (∃ s, rspamd_fuzzy_cmd_from_wire ctx d.addr now d.payload = some s))) ∧
    ((acceptOneDatagram ctx d now bs).2.2 =
      if (acceptOneDatagram ctx d now bs).1 = DatagramOutcome.invalid then 1
      else 0) := by
  rcases d with ⟨addr, payload⟩
  cases addr with
  | none =>
      cases hdec : rspamd_fuzzy_cmd_from_wire ctx none now payload with
      | none => simp [acceptOneDatagram, hdec]
      | some s => simp [acceptOneDatagram, hdec]
  | some a =>
      by_cases hb : rspamd_fuzzy_check_client ctx a
      · cases hdec : rspamd_fuzzy_cmd_from_wire ctx (some a) now payload with
        | none => simp [acceptOneDatagram, hdec, hb]
        | some s => simp [acceptOneDatagram, hdec, hb]
      · simp only [Bool.not_eq_true] at hb
        simp [acceptOneDatagram, hb]

/-- Witness for the amended C5: an unblocked, undecodable (empty) datagram
is the invalid outcome with exactly one increment. -/
theorem datagram_outcome_trichotomy_witness :
    (acceptOneDatagram sampleCtx ⟨some sampleAddr, []⟩ 0 []).2.2 =
      if (acceptOneDatagram sampleCtx ⟨some sampleAddr, []⟩ 0 []).1 =
          DatagramOutcome.invalid then 1
      else 0 :=
  (datagram_outcome_trichotomy sampleCtx ⟨some sampleAddr, []⟩ 0 []).2.2.2

/-- C6: in the EMA branch the code evaluates both deltas but feeds Δchecked
AND Δmatched into `checked_ctr` (fuzzy_storage.cxx:749-750), leaving
`matched_ctr` untouched — although updating it would visibly change it. -/
theorem ema_update_feeds_matched_into_checked_ctr :
    (updateKeyStat true FUZZY_CHECK 0 4000 emaStat).matched_ctr =
      emaStat.matched_ctr ∧
    (updateKeyStat true FUZZY_CHECK 0 4000 emaStat).checked_ctr =
      rspamd_set_counter_ema (rspamd_set_counter_ema emaStat.checked_ctr 10) 4 ∧
    rspamd_set_counter_ema emaStat.matched_ctr 4 ≠ emaStat.matched_ctr ∧
    (updateKeyStat true FUZZY_CHECK 0 4000 emaStat).last_checked_time =
      some 4000 := by
  refine ⟨?_, ?_, ?_, ?_⟩ <;>
    norm_num [updateKeyStat, emaStat, rspamd_set_counter_ema, FUZZY_CHECK,
      KEY_STAT_INTERVAL]

/-- C7: a first CHECK on a default-constructed per-key stats record leaves
`last_checked_time` as NaN and takes no snapshot — the initialization branch
tests `last_checked_time == 0.0`, which the NaN default never satisfies. -/
theorem first_check_does_not_initialize_ts :
    (updateKeyStat false FUZZY_CHECK 0 100 GenericStat.init).last_checked_time =
      none ∧
    (updateKeyStat false FUZZY_CHECK 0 100 GenericStat.init).checked = 1 ∧
    (updateKeyStat false FUZZY_CHECK 0 100 GenericStat.init).last_checked_count =
      0 ∧
    GenericStat.init.last_checked_time = none := by
  refine ⟨by decide, by decide, by decide, rfl⟩

theorem EpochCounters_get_bump (c : EpochCounters) (ep : Epoch) :
    (c.bump ep).get ep = c.get ep + 1 := by
  cases ep <;> rfl

theorem update_stats_found (g : GlobalStat) (ep : Epoch) (m sh dl : Bool)
    (ks ip : Option GenericStat) (cmd : ℕ) (rep : ℤ) (ts : ℚ) :
    (rspamd_fuzzy_update_stats g ep m sh dl ks ip cmd rep ts).1.fuzzy_hashes_found =
      if m then g.fuzzy_hashes_found.bump ep else g.fuzzy_hashes_found := by
  cases m <;> cases sh <;> cases dl <;> simp [rspamd_fuzzy_update_stats]

theorem updateKeyStat_matched_eq (m : Bool) (rep : ℤ) (ts : ℚ) (st : GenericStat) :
    (updateKeyStat m FUZZY_CHECK rep ts st).matched =
      if m = true then st.matched + 1 else st.matched := by
  unfold updateKeyStat
  by_cases h1 : ¬(m = true) ∧ rep ≠ 0
  · rw [if_pos h1]
    simp [h1.1]
  · rw [if_neg h1]
    rw [if_pos rfl]
    cases m with
    | false =>
        simp only [Bool.false_eq_true, if_false]
        split
        · rfl
        · split <;> rfl
    | true =>
        simp only [if_true]
        split
        · rfl
        · split <;> rfl

theorem updateIpStat_matched_eq (m : Bool) (rep : ℤ) (st : GenericStat) :
    (updateIpStat m FUZZY_CHECK rep st).matched =
      if m = true then st.matched + 1 else st.matched := by
  unfold updateIpStat
  by_cases h1 : ¬(m = true) ∧ rep ≠ 0
  · rw [if_pos h1]
    simp [h1.1]
  · rw [if_neg h1]
    rw [if_pos rfl]

/-- C10: a completed request is counted as matched — global per-epoch found
counter and per-key / per-IP matched counters — exactly when the reply
probability is strictly greater than 0.5; probabilities in (0, 0.5] count
nothing as found. -/
theorem matched_counting_iff_prob_gt_half (s : Session) (res : BackendRes)
    (delayed : Bool) (g : GlobalStat) (ks ip : GenericStat)
    (hcmd : s.cmd = FUZZY_CHECK) :
    ((makeReplyStats s res delayed g (some ks) (some ip)).1.fuzzy_hashes_found.get
        s.epoch =
      g.fuzzy_hashes_found.get s.epoch + (if 1 / 2 < res.prob then 1 else 0)) ∧
    ((makeReplyStats s res delayed g (some ks) (some ip)).2.1.map
        GenericStat.matched =
      some (ks.matched + (if 1 / 2 < res.prob then 1 else 0))) ∧
    ((makeReplyStats s res delayed g (some ks) (some ip)).2.2.map
        GenericStat.matched =
      some (ip.matched + (if 1 / 2 < res.prob then 1 else 0))) ∧
    (0 < res.prob → res.prob ≤ 1 / 2 →
      (makeReplyStats s res delayed g (some ks) (some ip)).1.fuzzy_hashes_found =
        g.fuzzy_hashes_found) := by
  have hmb : makeReplyMatched res.prob = decide (1 / 2 < res.prob) := rfl
  refine ⟨?_, ?_, ?_, ?_⟩
  · rw [makeReplyStats, hcmd, update_stats_found, hmb]
    by_cases hp : 1 / 2 < res.prob
    · rw [if_pos (decide_eq_true hp), if_pos hp, EpochCounters_get_bump]
    · rw [if_neg (fun h => hp (of_decide_eq_true h)), if_neg hp]
      simp
  · rw [makeReplyStats, hcmd]
    show Option.map GenericStat.matched
        (Option.map (updateKeyStat (makeReplyMatched res.prob) FUZZY_CHECK
          res.value s.timestamp) (some ks)) = _
    rw [Option.map_some', Option.map_some', updateKeyStat_matched_eq, hmb]
    by_cases hp : 1 / 2 < res.prob
    · rw [if_pos (decide_eq_true hp), if_pos hp]
    · rw [if_neg (fun h => hp (of_decide_eq_true h)), if_neg hp]
      simp
  · rw [makeReplyStats, hcmd]
    show Option.map GenericStat.matched
        (Option.map (updateIpStat (makeReplyMatched res.prob) FUZZY_CHECK
          res.value) (some ip)) = _
    rw [Option.map_some', Option.map_some', updateIpStat_matched_eq, hmb]
    by_cases hp : 1 / 2 < res.prob
    · rw [if_pos (decide_eq_true hp), if_pos hp]
    · rw [if_neg (fun h => hp (of_decide_eq_true h)), if_neg hp]
      simp
  · intro hpos hle
    rw [makeReplyStats, hcmd, update_stats_found, hmb]
    rw [if_neg (fun h => (not_lt.mpr hle) (of_decide_eq_true h))]

/-- Witness for C10 at a strong backend hit (prob = 9/10). -/
theorem matched_counting_iff_prob_gt_half_witness :
    (makeReplyStats (checkSession 0) (sampleBackend []) false zeroGlobalStat
        (some GenericStat.init) (some GenericStat.init)).1.fuzzy_hashes_found.get
      (checkSession 0).epoch =
    zeroGlobalStat.fuzzy_hashes_found.get (checkSession 0).epoch +
      (if 1 / 2 < (sampleBackend []).prob then 1 else 0) :=
  (matched_counting_iff_prob_gt_half (checkSession 0) (sampleBackend []) false
    zeroGlobalStat GenericStat.init GenericStat.init rfl).1

end FuzzyStorage
